import Mathlib

/-! Shallow embedding of the supervision/reliability core of the `baihu`
daemon (Rust), covering: constant-time comparison and the pairing guard
(src/security/pairing.rs), the health registry (src/health/mod.rs),
backoff jitter (src/providers/reliable.rs), atomic file writes
(src/security/atomic_write.rs), SSRF URL validation
(src/providers/http_client.rs), the retry/fallback provider chain
(src/providers/reliable.rs), and the daemon instance lock
(src/daemon/mod.rs).

Machine integers are modelled as `Nat` with explicit `% 2^w` where the
source truncates; wall-clock instants are abstract `Nat` tick values
(milliseconds where a sub-second resolution matters); the filesystem and
the OS advisory-lock table are explicit state values threaded through the
operations. -/

set_option maxRecDepth 100000

namespace Baihu

/-! ## Constant-time comparison (src/security/pairing.rs, constant_time_eq) -/

/-- Byte of a byte string at index `i`; out-of-range reads give 0, exactly
as the source's `if i < a.len() { a[i] } else { 0 }`. -/
def getByte (l : List Nat) (i : Nat) : Nat := l.getD i 0

/-- Embedding of `constant_time_eq` over byte strings (the source takes
`&str` and immediately views both arguments as UTF-8 bytes).  The
accumulator `diff` is a `u8`: the initial value `(a.len() ^ b.len()) as u8`
is the XOR of the lengths reduced mod 256, and every later `diff |= x ^ y`
stays below 256 because `x` and `y` are bytes. -/
def constantTimeEq (a b : List Nat) : Bool :=
  let maxLen := max a.length b.length
  let init := (a.length ^^^ b.length) % 256
  let diff := (List.range maxLen).foldl
    (fun d i => d ||| (getByte a i ^^^ getByte b i)) init
  diff == 0

/-! ## Pairing guard (src/security/pairing.rs) -/

def MAX_PAIR_ATTEMPTS : Nat := 5

def PAIR_LOCKOUT_SECS : Nat := 300

/-- UTF-8 encoding of one scalar value (1–4 bytes). -/
def utf8Bytes (c : Char) : List Nat :=
  let n := c.toNat
  if n < 0x80 then [n]
  else if n < 0x800 then
    [0xC0 ||| (n >>> 6), 0x80 ||| (n &&& 0x3F)]
  else if n < 0x10000 then
    [0xE0 ||| (n >>> 12), 0x80 ||| ((n >>> 6) &&& 0x3F),
     0x80 ||| (n &&& 0x3F)]
  else
    [0xF0 ||| (n >>> 18), 0x80 ||| ((n >>> 12) &&& 0x3F),
     0x80 ||| ((n >>> 6) &&& 0x3F), 0x80 ||| (n &&& 0x3F)]

/-- UTF-8 byte view of a string, as `u8` values widened to `Nat`
(the source's `str::as_bytes`). -/
def strBytes (s : String) : List Nat :=
  s.data.foldr (fun c acc => utf8Bytes c ++ acc) []

/-- Model of `str::trim`: strip whitespace from both ends. -/
def rustTrim (s : String) : String :=
  ⟨((s.data.dropWhile Char.isWhitespace).reverse.dropWhile
      Char.isWhitespace).reverse⟩

/-- `constant_time_eq` applied to two strings, as the source does at its
call site in `try_pair`. -/
def ctEqStr (a b : String) : Bool := constantTimeEq (strBytes a) (strBytes b)

/-- State of `PairingGuard`.  `paired_tokens` is the token `HashSet` as a
duplicate-free list; `failedCount`/`lockedAt` are the two halves of the
`failed_attempts: (u32, Option<Instant>)` pair, instants measured in
milliseconds. -/
structure PairingGuard where
  require_pairing : Bool
  pairing_code : Option String
  paired_tokens : List String
  failedCount : Nat
  lockedAt : Option Nat
deriving Repr, DecidableEq

/-- Embedding of `PairingGuard::new`.  Code generation draws from the OS
CSPRNG; the freshly generated 6-digit code is passed in as `genCode`. -/
def PairingGuard.new (rp : Bool) (existing : List String) (genCode : String) :
    PairingGuard :=
  { require_pairing := rp
    pairing_code := if rp && existing.isEmpty then some genCode else none
    paired_tokens := existing
    failedCount := 0
    lockedAt := none }

/-- Embedding of `PairingGuard::try_pair`.  `nowMs` is the current monotonic
instant in milliseconds (`locked_at.elapsed().as_secs()` is whole-second
truncation, hence the `/ 1000`); `freshToken` is the token `generate_token`
would return on this call.  Returns the `Result<Option<String>, u64>`
together with the updated guard state. -/
def tryPair (g : PairingGuard) (code : String) (nowMs : Nat)
    (freshToken : String) : Except Nat (Option String) × PairingGuard :=
  let locked : Option Nat :=
    match g.lockedAt with
    | some lockedAt =>
        if MAX_PAIR_ATTEMPTS ≤ g.failedCount then
          let elapsed := (nowMs - lockedAt) / 1000
          if elapsed < PAIR_LOCKOUT_SECS then some (PAIR_LOCKOUT_SECS - elapsed)
          else none
        else none
    | none => none
  match locked with
  | some remaining => (Except.error remaining, g)
  | none =>
      let matched :=
        match g.pairing_code with
        | some expected => ctEqStr (rustTrim code) (rustTrim expected)
        | none => false
      if matched then
        (Except.ok (some freshToken),
         { g with failedCount := 0
                  lockedAt := none
                  paired_tokens := g.paired_tokens.insert freshToken })
      else
        let count := g.failedCount + 1
        (Except.ok none,
         { g with failedCount := count
                  lockedAt := if MAX_PAIR_ATTEMPTS ≤ count then some nowMs
                              else g.lockedAt })

/-! ## Health registry (src/health/mod.rs)

Timestamps are abstract clock ticks (`Nat`): each call of the source's
`now_rfc3339()` reads the wall clock, and distinct reads of a strictly
advancing clock yield distinct RFC3339 strings, so every clock read is an
explicit `Nat` argument here.  The registry's `BTreeMap` is an association
list keyed by component name. -/

structure ComponentHealth where
  status : String
  updated_at : Nat
  last_ok : Option Nat
  last_error : Option String
  restart_count : Nat
deriving Repr, DecidableEq

abbrev HealthMap := List (String × ComponentHealth)

def lookupComp (m : HealthMap) (name : String) : Option ComponentHealth :=
  match m with
  | [] => none
  | (k, v) :: rest => if k = name then some v else lookupComp rest name

def setComp (m : HealthMap) (name : String) (h : ComponentHealth) : HealthMap :=
  match m with
  | [] => [(name, h)]
  | (k, v) :: rest =>
      if k = name then (k, h) :: rest else (k, v) :: setComp rest name h

/-- The `or_insert_with` default entry of `upsert_component`. -/
def defaultHealth (now : Nat) : ComponentHealth :=
  { status := "starting", updated_at := now, last_ok := none,
    last_error := none, restart_count := 0 }

/-- Embedding of `upsert_component`: `now` is the single `now_rfc3339()`
read taken at the top of the function; the entry is looked up or freshly
inserted, the closure `update` runs, and `updated_at` is then overwritten
with `now`. -/
def upsertComponent (m : HealthMap) (name : String) (now : Nat)
    (update : ComponentHealth → ComponentHealth) : HealthMap :=
  let entry := (lookupComp m name).getD (defaultHealth now)
  let entry := update entry
  setComp m name { entry with updated_at := now }

/-- Embedding of `mark_component_ok`.  The source's closure performs a
second clock read for `last_ok` (`Some(now_rfc3339())`), distinct from the
`now` read inside `upsert_component`; it appears here as `nowOk`, read
after `now` (so `now ≤ nowOk` on a monotone clock). -/
def markComponentOk (m : HealthMap) (name : String) (now nowOk : Nat) :
    HealthMap :=
  upsertComponent m name now (fun e =>
    { e with status := "ok", last_ok := some nowOk, last_error := none })

/-- Embedding of `mark_component_error` (the error string is rendered
before the closure runs, with no extra clock read). -/
def markComponentError (m : HealthMap) (name : String) (err : String)
    (now : Nat) : HealthMap :=
  upsertComponent m name now (fun e =>
    { e with status := "error", last_error := some err })

/-- Embedding of `bump_component_restart`; `saturating_add(1)` on a `u64`. -/
def bumpComponentRestart (m : HealthMap) (name : String) (now : Nat) :
    HealthMap :=
  upsertComponent m name now (fun e =>
    { e with restart_count := min (e.restart_count + 1) (2 ^ 64 - 1) })

/-- Embedding of `structured_error` (src/health/mod.rs). -/
def structured_error (what why fix : String) : String :=
  what ++ "\n  Cause: " ++ why ++ "\n  Fix: " ++ fix

/-! ## Backoff jitter (src/providers/reliable.rs, apply_jitter)

The source computes `factor = 0.75 + (raw as f64 / u32::MAX as f64) * 0.5`
and then `(base_ms as f64 * factor) as u64` in IEEE double precision.  With
`M = u32::MAX` the factor is the rational `(3*M + 2*raw) / (4*M)`, so the
truncating float-to-integer cast is the exact natural-number division
below; the embedding performs that arithmetic exactly (f64 rounding of the
intermediate products is abstracted away). -/

def U32_MAX : Nat := 4294967295

/-- Embedding of `apply_jitter` in exact arithmetic: `raw` is the 32-bit
CSPRNG draw (`raw ≤ U32_MAX`), and the result is
`max 1 ⌊base_ms * (0.75 + raw/M * 0.5)⌋`. -/
def apply_jitter (base_ms raw : Nat) : Nat :=
  max 1 ((base_ms * (3 * U32_MAX + 2 * raw)) / (4 * U32_MAX))

/-! ## Atomic file writes (src/security/atomic_write.rs)

Paths are modelled with the three pieces `Path::with_extension` operates
on: the parent directory, the file stem, and the (final) extension —
`with_extension` replaces the extension and leaves directory and stem
alone.  The filesystem is an explicit value: a set of existing directories
and a map from paths to byte contents.  `File::create` fails iff the
parent directory is missing; the write/fsync step's environmental outcome
is the injected flag `syncOk`; the rename (same directory, parent
present) succeeds, and POSIX `rename(p, p)` is a successful no-op. -/

structure FsPath where
  dir : String
  stem : String
  ext : Option String
deriving Repr, DecidableEq

/-- Embedding of `Path::with_extension`: replaces the extension. -/
def withExtension (p : FsPath) (e : String) : FsPath := { p with ext := some e }

structure FS where
  dirs : List String
  files : List (FsPath × List Nat)
deriving Repr, DecidableEq

def lookupFile (l : List (FsPath × List Nat)) (p : FsPath) :
    Option (List Nat) :=
  match l with
  | [] => none
  | (q, c) :: rest => if q = p then some c else lookupFile rest p

def readFile (fs : FS) (p : FsPath) : Option (List Nat) :=
  lookupFile fs.files p

def setFile (l : List (FsPath × List Nat)) (p : FsPath) (data : List Nat) :
    List (FsPath × List Nat) :=
  match l with
  | [] => [(p, data)]
  | (q, c) :: rest =>
      if q = p then (q, data) :: rest else (q, c) :: setFile rest p data

/-- Create-or-truncate followed by a full write (`File::create` +
`write_all`). -/
def writeFile (fs : FS) (p : FsPath) (data : List Nat) : FS :=
  ⟨fs.dirs, setFile fs.files p data⟩

def removeEntry (l : List (FsPath × List Nat)) (p : FsPath) :
    List (FsPath × List Nat) :=
  match l with
  | [] => []
  | (q, c) :: rest =>
      if q = p then removeEntry rest p else (q, c) :: removeEntry rest p

/-- `fs::remove_file`; removing a missing file is the source's ignored
`let _ = fs::remove_file(...)`. -/
def removeFile (fs : FS) (p : FsPath) : FS :=
  ⟨fs.dirs, removeEntry fs.files p⟩

/-- `fs::rename src dst`: the content moves to `dst` and `src` disappears;
`rename(p, p)` leaves the file in place. -/
def renameFile (fs : FS) (src dst : FsPath) : FS :=
  match readFile fs src with
  | none => fs
  | some c => writeFile (removeFile fs src) dst c

structure WriteResult where
  fs : FS
  err : Option String
deriving Repr, DecidableEq

/-- Embedding of `atomic_write`: compute `tmp = path.with_extension("tmp")`,
create and write `tmp` (failing if the parent directory is missing), fsync
(outcome injected as `syncOk`), then rename `tmp → path`; on a
create/write/fsync failure the temp file is removed and the error
surfaced. -/
def atomic_write (fs : FS) (p : FsPath) (data : List Nat) (syncOk : Bool) :
    WriteResult :=
  let tmp := withExtension p "tmp"
  if p.dir ∈ fs.dirs then -- tmp.dir is p.dir: with_extension keeps the parent
    let fs1 := writeFile fs tmp data
    if syncOk then { fs := renameFile fs1 tmp p, err := none }
    else { fs := removeFile fs1 tmp, err := some "Failed to fsync temp file" }
  else
    { fs := removeFile fs tmp, err := some "Failed to create temp file" }

/-! ## SSRF guard (src/providers/http_client.rs)

`is_private_ip` is a direct translation of the source over an explicit IP
datatype (IPv4 as four octets, IPv6 as eight 16-bit segments).
`validate_url_not_private` consumes the outcome of `reqwest::Url::parse`,
which is external library code: it is modelled as an `Option ParsedUrl`
(`none` is a parse failure) carrying the `host_str()` value.  Rust std's
`str::parse::<IpAddr>()` is likewise external; `parseIpAddr` models it for
the standard textual forms (dotted-decimal IPv4 without leading zeros,
hex-group IPv6 with at most one `::`; the rarely used embedded-IPv4 tail
form is not modelled).  `str::to_lowercase` is modelled on ASCII, which is
the alphabet of URL hosts. -/

inductive IpAddr where
  | v4 (a b c d : Nat)
  | v6 (a b c d e f g h : Nat)
deriving Repr, DecidableEq

/-- Embedding of `is_private_ip`: loopback, RFC1918, link-local, broadcast,
unspecified and CGNAT for IPv4; loopback, unspecified, unique-local
(fc00::/7) and link-local (fe80::/10) for IPv6. -/
def is_private_ip : IpAddr → Bool
  | .v4 a b c d =>
      (a == 127)
        || (a == 10)
        || (a == 172 && decide (16 ≤ b) && decide (b ≤ 31))
        || (a == 192 && b == 168)
        || (a == 169 && b == 254)
        || (a == 255 && b == 255 && c == 255 && d == 255)
        || (a == 0 && b == 0 && c == 0 && d == 0)
        || (a == 100 && decide (64 ≤ b) && decide (b ≤ 127))
  | .v6 a b c d e f g h =>
      (a == 0 && b == 0 && c == 0 && d == 0 && e == 0 && f == 0 && g == 0
        && h == 1)
        || (a == 0 && b == 0 && c == 0 && d == 0 && e == 0 && f == 0
          && g == 0 && h == 0)
        || ((a &&& 0xfe00) == 0xfc00)
        || ((a &&& 0xffc0) == 0xfe80)

/-- Split a character list on a single-character separator, with the
semantics of Rust's `str::split` / Lean's `String.splitOn` ("a.b" gives
["a", "b"], "" gives [""], ".x" gives ["", "x"]). -/
def splitOnChar (sep : Char) : List Char → List (List Char)
  | [] => [[]]
  | c :: rest =>
      if c = sep then [] :: splitOnChar sep rest
      else
        match splitOnChar sep rest with
        | g :: gs => (c :: g) :: gs
        | [] => [[c]]

/-- Split a character list on the two-character separator "::", leftmost
match first (the semantics of `str::split("::")`). -/
def splitOnDoubleColon : List Char → List (List Char)
  | [] => [[]]
  | [c] => [[c]]
  | a :: b :: rest =>
      if a = ':' ∧ b = ':' then [] :: splitOnDoubleColon rest
      else
        match splitOnDoubleColon (b :: rest) with
        | g :: gs => (a :: g) :: gs
        | [] => [[a]]

/-- Decimal value of a digit list (callers have checked the digits). -/
def decDigitsVal (s : List Char) : Nat :=
  s.foldl (fun acc c => acc * 10 + (c.toNat - 48)) 0

/-- One dotted-decimal IPv4 octet as Rust std parses it: 1–3 decimal
digits, no leading zero (except the single digit 0), value at most 255. -/
def parseDecOctet (s : List Char) : Option Nat :=
  if s.length = 0 then none
  else if ¬ s.all Char.isDigit then none
  else if 1 < s.length ∧ s.headD '0' = '0' then none
  else
    let v := decDigitsVal s
    if v ≤ 255 then some v else none

/-- Model of Rust std's IPv4 textual parsing (`Ipv4Addr::from_str`). -/
def parseIpv4 (s : String) : Option IpAddr :=
  match (splitOnChar '.' s.data).mapM parseDecOctet with
  | some [a, b, c, d] => some (.v4 a b c d)
  | _ => none

def hexDigitVal (c : Char) : Option Nat :=
  if c.isDigit then some (c.toNat - 48)
  else if 'a' ≤ c ∧ c ≤ 'f' then some (c.toNat - 87)
  else if 'A' ≤ c ∧ c ≤ 'F' then some (c.toNat - 55)
  else none

/-- One IPv6 hex group: 1–4 hex digits. -/
def parseHexGroup (s : List Char) : Option Nat :=
  if s.length = 0 ∨ 4 < s.length then none
  else s.foldl (fun acc c =>
    match acc, hexDigitVal c with
    | some a, some v => some (a * 16 + v)
    | _, _ => none) (some 0)

def v6OfList (l : List Nat) : Option IpAddr :=
  match l with
  | [a, b, c, d, e, f, g, h] => some (.v6 a b c d e f g h)
  | _ => none

/-- Model of Rust std's IPv6 textual parsing (`Ipv6Addr::from_str`) for
the hex-group forms: either eight colon-separated groups, or two runs of
groups joined by one `::` abbreviating at least one zero group. -/
def parseIpv6 (s : String) : Option IpAddr :=
  match splitOnDoubleColon s.data with
  | [whole] =>
      let gs := splitOnChar ':' whole
      if gs.length = 8 then
        match gs.mapM parseHexGroup with
        | some l => v6OfList l
        | none => none
      else none
  | [l, r] =>
      let ls := if l.isEmpty then [] else splitOnChar ':' l
      let rs := if r.isEmpty then [] else splitOnChar ':' r
      if ls.length + rs.length ≤ 7 then
        match ls.mapM parseHexGroup, rs.mapM parseHexGroup with
        | some lv, some rv =>
            v6OfList (lv ++ List.replicate (8 - (lv.length + rv.length)) 0
              ++ rv)
        | _, _ => none
      else none
  | _ => none

/-- Model of `str::parse::<IpAddr>()`: IPv4 first, then IPv6. -/
def parseIpAddr (s : String) : Option IpAddr :=
  match parseIpv4 s with
  | some ip => some ip
  | none => parseIpv6 s

/-- ASCII model of `str::to_lowercase` (URL hosts are ASCII). -/
def toLowerAscii (s : List Char) : List Char := s.map Char.toLower

/-- Suffix test on character lists (`str::ends_with`). -/
def endsWithL (l suffix : List Char) : Bool :=
  decide (suffix.length ≤ l.length)
    && (l.drop (l.length - suffix.length) == suffix)

/-- The `BLOCKED_HOSTS` constant. -/
def BLOCKED_HOSTS : List String :=
  ["localhost", "metadata.google.internal", "metadata.aws.internal",
   "instance-data"]

/-- The blocked-hostname loop of `validate_url_not_private`: the lowercased
host equals a blocked literal or ends with `"." ++ literal`. -/
def hostBlocked (host : String) : Bool :=
  BLOCKED_HOSTS.any (fun b =>
    toLowerAscii host.data == b.data
      || endsWithL (toLowerAscii host.data) ('.' :: b.data))

/-- The direct-IP check: the host string parses as an IP that is private. -/
def hostIpPrivate (host : String) : Bool :=
  match parseIpAddr host with
  | some ip => is_private_ip ip
  | none => false

/-- The interior of `host[1..host.len()-1]` (hosts are ASCII, so byte
slicing is character slicing). -/
def stripOuter (l : List Char) : List Char := (l.drop 1).dropLast

/-- The bracket-stripped IPv6 check: `host[1..len-1]` parses to a private
IP when the host is of the form `[...]`. -/
def bracketIpPrivate (host : String) : Bool :=
  match host.data with
  | '[' :: rest =>
      if rest.getLast? = some ']' then
        match parseIpAddr ⟨stripOuter host.data⟩ with
        | some ip => is_private_ip ip
        | none => false
      else false
  | _ => false

/-- Result of `reqwest::Url::parse` (external library code), reduced to the
one field `validate_url_not_private` reads: `host_str()`, which is `none`
for host-less URLs (`parsed.host_str().unwrap_or("")` maps that to `""`). -/
structure ParsedUrl where
  host : Option String
deriving Repr, DecidableEq

/-- Embedding of `validate_url_not_private`; `none` input is a URL-parse
failure. -/
def validate_url_not_private (u : Option ParsedUrl) : Except String Unit :=
  match u with
  | none => Except.error "Invalid URL"
  | some parsed =>
      let host := parsed.host.getD ""
      if hostBlocked host then
        Except.error ("Blocked internal hostname: " ++ host)
      else if hostIpPrivate host then
        Except.error ("Blocked private IP: " ++ host)
      else if bracketIpPrivate host then
        Except.error ("Blocked private IP: " ++ host)
      else Except.ok ()

/-! ## Reliable provider chain (src/providers/reliable.rs,
`ReliableProvider::chat_with_system`)

A provider collaborator is a function from its invocation number (0-based,
per provider) to the `Result<String>` of that invocation.  The sleeps and
backoff-doubling between retries do not affect which calls are made, so
they are not part of the call-counting model.  Alongside the
`Except`-valued result, each function returns the number of invocations
each provider received — the instrumentation the source's tests implement
with per-mock atomic counters. -/

abbrev ProviderFn := Nat → Except String String

/-- The inner `for attempt in 0..=max_retries` loop for one provider:
`fuel` is the number of attempts left (`maxR + 1` at entry), `attempt` the
0-based attempt index; failure lines are recorded exactly as the source
formats them.  Returns (success content if any, number of invocations
made, accumulated failure lines). -/
def providerLoop (behave : ProviderFn) (name : String) (maxR : Nat)
    (attempt : Nat) (fuel : Nat) (failures : List String) :
    Option String × Nat × List String :=
  match fuel with
  | 0 => (none, 0, failures)
  | fuel' + 1 =>
      match behave attempt with
      | Except.ok r => (some r, 1, failures)
      | Except.error e =>
          let line := name ++ " attempt " ++ toString (attempt + 1) ++ "/"
            ++ toString (maxR + 1) ++ ": " ++ e
          let (res, calls, fs) :=
            providerLoop behave name maxR (attempt + 1) fuel'
              (failures ++ [line])
          (res, calls + 1, fs)

/-- The outer `for (provider_name, provider) in &self.providers` loop:
providers are tried in order, each with `maxR + 1` attempts; once one
succeeds the rest are never invoked; if all are exhausted the aggregated
error lists every recorded attempt line. -/
def chainLoop (providers : List (String × ProviderFn)) (maxR : Nat)
    (failures : List String) : Except String String × List Nat :=
  match providers with
  | [] =>
      (Except.error ("All providers failed. Attempts:\n"
        ++ String.intercalate "\n" failures), [])
  | (name, behave) :: rest =>
      let (res, calls, failures') :=
        providerLoop behave name maxR 0 (maxR + 1) failures
      match res with
      | some r => (Except.ok r, calls :: rest.map (fun _ => 0))
      | none =>
          let (out, cs) := chainLoop rest maxR failures'
          (out, calls :: cs)

/-- Embedding of `chat_with_system`: `cached` is the content of a fresh
(unexpired) cache entry for the `(message, model)` key if the cache holds
one — in that case it is returned with no provider invocation; otherwise
the retry/fallback chain runs. -/
def chat_with_system (cached : Option String)
    (providers : List (String × ProviderFn)) (maxR : Nat) :
    Except String String × List Nat :=
  match cached with
  | some content => (Except.ok content, providers.map (fun _ => 0))
  | none => chainLoop providers maxR []

/-! ## Daemon instance lock (src/daemon/mod.rs, `run`)

The OS advisory exclusive file lock (`fs2::FileExt::try_lock_exclusive`) is
an external collaborator; it is modelled as an explicit lock table mapping
lock-file paths to the process id of the holder.  `try_lock_exclusive`
succeeds iff no process holds the path; dropping the file handle releases
the holder's entry.  `daemonAcquireLock` embeds the lock-acquisition
prologue of `run`, including its structured error. -/

abbrev ProcId := Nat

structure LockTable where
  held : List (String × ProcId)
deriving Repr, DecidableEq

/-- Model of the OS exclusive advisory lock: acquisition succeeds iff the
path is free. -/
def tryLockExclusive (t : LockTable) (path : String) (pid : ProcId) :
    Option LockTable :=
  if t.held.any (fun e => e.1 == path) then none
  else some ⟨(path, pid) :: t.held⟩

/-- Dropping the holder's file handle releases its entry. -/
def dropLock (t : LockTable) (path : String) (pid : ProcId) : LockTable :=
  ⟨t.held.filter (fun e => !(e.1 == path && e.2 == pid))⟩

/-- The lock path `run` resolves: `<config-dir>/daemon.lock`. -/
def daemonLockPath (configDir : String) : String :=
  configDir ++ "/daemon.lock"

/-- Embedding of the instance-lock prologue of `daemon::run`: try the
exclusive lock on `<config-dir>/daemon.lock`; on failure return the
structured instance-conflict error. -/
def daemonAcquireLock (t : LockTable) (configDir : String) (pid : ProcId) :
    Except String LockTable :=
  let lockPath := daemonLockPath configDir
  match tryLockExclusive t lockPath pid with
  | some held => Except.ok held
  | none =>
      Except.error (structured_error "Failed to start daemon"
        ("another instance holds the lock (" ++ lockPath ++ ")")
        "stop the existing daemon with Ctrl+C or remove the lock file")

/-- Number of holders a path has in the lock table. -/
def holdersOf (t : LockTable) (path : String) : Nat :=
  (t.held.filter (fun e => e.1 == path)).length

/-- A system trace event: a process attempts to start a daemon on a config
directory (acquiring on success, a no-op on failure), or a holder's
process drops its lock-file handle (process exit). -/
inductive LockOp where
  | start (configDir : String) (pid : ProcId)
  | drop (configDir : String) (pid : ProcId)

def applyLockOp (t : LockTable) : LockOp → LockTable
  | .start dir pid =>
      match daemonAcquireLock t dir pid with
      | Except.ok t2 => t2
      | Except.error _ => t
  | .drop dir pid => dropLock t (daemonLockPath dir) pid

def applyLockOps (ops : List LockOp) (t : LockTable) : LockTable :=
  ops.foldl applyLockOp t

end Baihu

namespace Baihu

/-- A byte string XORs to zero against itself, so the constant-time
comparison accepts reflexive pairs. -/
theorem constantTimeEq_self (a : List Nat) : constantTimeEq a a = true := by
  unfold constantTimeEq
  simp only [Nat.xor_self]
  have h : ∀ (L : List Nat) (d : Nat),
      L.foldl (fun d i => d ||| (getByte a i ^^^ getByte a i)) d = d := by
    intro L
    induction L with
    | nil => intro d; rfl
    | cons x xs ih => intro d; simp [List.foldl, Nat.xor_self, ih]
  simp [h]

/-- Claim C1: for all strings `a` and `b`, `constant_time_eq(a, b)` returns
true iff `a = b` as byte strings — refuted at the failing input: the empty
string against the string of 256 NUL bytes.  The length XOR `0 ^^^ 256` is
truncated to the `u8` value 0, and every compared byte position pairs a real
NUL byte with the implicit 0 padding, so the accumulator stays 0 and the
function returns `true` for two unequal byte strings. -/
theorem constant_time_eq_nul_padding_bug :
    constantTimeEq [] (List.replicate 256 0) = true ∧
      ([] : List Nat) ≠ List.replicate 256 0 := by
  constructor
  · decide
  · decide

/-- Looking up a component right after `setComp` stored it yields the
stored record. -/
theorem lookupComp_setComp_self (m : HealthMap) (name : String)
    (h : ComponentHealth) : lookupComp (setComp m name h) name = some h := by
  induction m with
  | nil => simp [setComp, lookupComp]
  | cons kv rest ih =>
      obtain ⟨k, v⟩ := kv
      by_cases hk : k = name
      · simp [setComp, lookupComp, hk]
      · simp [setComp, lookupComp, hk, ih]

/-- Claim C2 counterexample: the trace `mark_ok("c")` (with both clock
reads at tick 0) followed by `bump_restart("c")` at tick 1 leaves the
record with `status = ok`, `last_ok = tick 0`, but `updated_at = tick 1`:
`bump_component_restart` refreshes `updated_at` without touching `last_ok`,
so the claimed invariant does not survive every mutation. -/
theorem health_ok_invariant_broken_by_bump :
    ∃ e, lookupComp
        (bumpComponentRestart (markComponentOk [] "c" 0 0) "c" 1) "c" =
        some e ∧ e.status = "ok" ∧ e.last_ok ≠ some e.updated_at := by
  refine ⟨⟨"ok", 1, some 0, none, 1⟩, by decide, rfl, by decide⟩

/-- Claim C2 (amended): a `mark_component_ok` whose two internal clock
reads coincide establishes the invariant — the component's record has
`status = ok` and `last_ok = updated_at` immediately afterwards.  (The
invariant is not preserved by a later `bump_component_restart`, which
refreshes `updated_at` only, nor when the two clock reads inside
`mark_component_ok` return different timestamps.) -/
theorem mark_ok_establishes_last_ok_invariant (m : HealthMap) (name : String)
    (t : Nat) :
    ∃ e, lookupComp (markComponentOk m name t t) name = some e ∧
      e.status = "ok" ∧ e.last_ok = some e.updated_at := by
  refine ⟨{ status := "ok", updated_at := t, last_ok := some t,
            last_error := none,
            restart_count :=
              ((lookupComp m name).getD (defaultHealth t)).restart_count },
    ?_, rfl, rfl⟩
  exact lookupComp_setComp_self m name _

/-- Claim C3 counterexample: at base 6 with raw draw 0 the jitter factor is
exactly 0.75 (no f64 rounding is involved at this input), the source
computes `(6.0 * 0.75) as u64 = 4`, and 4 lies outside the claimed set
`[⌈0.75·6⌉, ⌊1.25·6⌋] ∪ {1} = [5, 7] ∪ {1}` (here `(3*6+3)/4 = 5` is
`⌈0.75·6⌉` and `5*6/4 = 7` is `⌊1.25·6⌋`). -/
theorem apply_jitter_below_ceil_lower_bound :
    apply_jitter 6 0 = 4 ∧
      ¬(apply_jitter 6 0 = 1 ∨
        ((3 * 6 + 3) / 4 ≤ apply_jitter 6 0 ∧ apply_jitter 6 0 ≤ 5 * 6 / 4)) := by
  decide

/-- Claim C3 (amended): for every base `b` and every possible 32-bit draw,
the jitter output lies in `[⌊0.75·b⌋, ⌊1.25·b⌋] ∪ {1}` — the lower
endpoint is the floor of `0.75·b`, not its ceiling (`3*b/4` and `5*b/4`
are those floors as natural-number divisions). -/
theorem apply_jitter_bounds (b raw : Nat) (h : raw ≤ U32_MAX) :
    apply_jitter b raw = 1 ∨
      (3 * b / 4 ≤ apply_jitter b raw ∧ apply_jitter b raw ≤ 5 * b / 4) := by
  have hM : 0 < U32_MAX := by decide
  rcases Nat.eq_zero_or_pos ((b * (3 * U32_MAX + 2 * raw)) / (4 * U32_MAX))
    with h0 | hpos
  · left
    simp [apply_jitter, h0]
  · right
    have hmax : apply_jitter b raw =
        (b * (3 * U32_MAX + 2 * raw)) / (4 * U32_MAX) := by
      simp [apply_jitter, Nat.max_eq_right hpos]
    constructor
    · rw [hmax]
      have h1 : 3 * b / 4 = 3 * b * U32_MAX / (4 * U32_MAX) :=
        (Nat.mul_div_mul_right _ _ hM).symm
      rw [h1]
      apply Nat.div_le_div_right
      calc 3 * b * U32_MAX = b * (3 * U32_MAX) := by ring
        _ ≤ b * (3 * U32_MAX + 2 * raw) :=
            Nat.mul_le_mul_left _ (Nat.le_add_right _ _)
    · rw [hmax]
      have h2 : 5 * b / 4 = 5 * b * U32_MAX / (4 * U32_MAX) :=
        (Nat.mul_div_mul_right _ _ hM).symm
      rw [h2]
      apply Nat.div_le_div_right
      calc b * (3 * U32_MAX + 2 * raw) ≤ b * (3 * U32_MAX + 2 * U32_MAX) := by
            apply Nat.mul_le_mul_left
            omega
        _ = 5 * b * U32_MAX := by ring

/-- Witness for the amended jitter bounds at base 4 and raw draw 0:
`apply_jitter 4 0 = 3` and `⌊0.75·4⌋ = 3 ≤ 3 ≤ 5 = ⌊1.25·4⌋`. -/
theorem apply_jitter_bounds_witness :
    0 ≤ U32_MAX ∧
      (apply_jitter 4 0 = 1 ∨
        (3 * 4 / 4 ≤ apply_jitter 4 0 ∧ apply_jitter 4 0 ≤ 5 * 4 / 4)) :=
  ⟨by decide, apply_jitter_bounds 4 0 (by decide)⟩

/-- Reading a path just stored by `setFile` yields the stored bytes. -/
theorem lookupFile_setFile_self (l : List (FsPath × List Nat)) (p : FsPath)
    (data : List Nat) : lookupFile (setFile l p data) p = some data := by
  induction l with
  | nil => simp [setFile, lookupFile]
  | cons e rest ih =>
      obtain ⟨q, c⟩ := e
      by_cases hq : q = p
      · simp [setFile, lookupFile, hq]
      · simp [setFile, lookupFile, hq, ih]

/-- `setFile` leaves every other path's content unchanged. -/
theorem lookupFile_setFile_other (l : List (FsPath × List Nat))
    (p q : FsPath) (data : List Nat) (h : q ≠ p) :
    lookupFile (setFile l p data) q = lookupFile l q := by
  induction l with
  | nil => simp [setFile, lookupFile, fun hc => h hc.symm ∘ Eq.symm, h.symm]
  | cons e rest ih =>
      obtain ⟨k, c⟩ := e
      by_cases hk : k = p
      · subst hk
        simp [setFile, lookupFile, h.symm]
      · simp [setFile, lookupFile, hk, ih]

/-- After `removeEntry` the removed path reads as absent. -/
theorem lookupFile_removeEntry_self (l : List (FsPath × List Nat))
    (p : FsPath) : lookupFile (removeEntry l p) p = none := by
  induction l with
  | nil => simp [removeEntry, lookupFile]
  | cons e rest ih =>
      obtain ⟨k, c⟩ := e
      by_cases hk : k = p
      · simp [removeEntry, hk, ih]
      · simp [removeEntry, hk, lookupFile, ih]

/-- `removeEntry` leaves every other path's content unchanged. -/
theorem lookupFile_removeEntry_other (l : List (FsPath × List Nat))
    (p q : FsPath) (h : q ≠ p) :
    lookupFile (removeEntry l p) q = lookupFile l q := by
  induction l with
  | nil => simp [removeEntry]
  | cons e rest ih =>
      obtain ⟨k, c⟩ := e
      by_cases hk : k = p
      · subst hk
        simp [removeEntry, lookupFile, h.symm, ih]
      · simp [removeEntry, hk, lookupFile, ih]

/-- A successful `atomic_write` with the parent directory present reduces
to: write the temp file, remove it, store the data at the destination. -/
theorem atomic_write_success_shape (fs : FS) (p : FsPath) (data : List Nat)
    (hdir : p.dir ∈ fs.dirs) :
    atomic_write fs p data true =
      { fs := writeFile (removeFile (writeFile fs (withExtension p "tmp") data)
          (withExtension p "tmp")) p data, err := none } := by
  have hr : renameFile (writeFile fs (withExtension p "tmp") data)
      (withExtension p "tmp") p =
      writeFile (removeFile (writeFile fs (withExtension p "tmp") data)
        (withExtension p "tmp")) p data := by
    unfold renameFile
    rw [show readFile (writeFile fs (withExtension p "tmp") data)
        (withExtension p "tmp") = some data from
      lookupFile_setFile_self ..]
  unfold atomic_write
  rw [if_pos hdir]
  exact congrArg (fun z => WriteResult.mk z none) hr

/-- After a successful `atomic_write`, the destination holds the data. -/
theorem atomic_write_success_read (fs : FS) (p : FsPath) (data : List Nat)
    (hdir : p.dir ∈ fs.dirs) :
    readFile (atomic_write fs p data true).fs p = some data := by
  rw [atomic_write_success_shape fs p data hdir]
  exact lookupFile_setFile_self ..

/-- Claim C4: on a path whose parent directory exists, a successful
`atomic_write(p, b)` reports no error, a subsequent read of `p` yields
exactly `b`, the temp path `p.with_extension("tmp")` is gone afterwards
(whenever it is a distinct path from the destination), and no other path's
content is disturbed. -/
theorem atomic_write_read_back (fs : FS) (p : FsPath) (data : List Nat)
    (hdir : p.dir ∈ fs.dirs) :
    (atomic_write fs p data true).err = none ∧
      readFile (atomic_write fs p data true).fs p = some data ∧
      (withExtension p "tmp" ≠ p →
        readFile (atomic_write fs p data true).fs (withExtension p "tmp") =
          none) ∧
      (∀ q, q ≠ p → q ≠ withExtension p "tmp" →
        readFile (atomic_write fs p data true).fs q = readFile fs q) := by
  have hw := atomic_write_success_shape fs p data hdir
  refine ⟨by rw [hw], atomic_write_success_read fs p data hdir, ?_, ?_⟩
  · intro hne
    rw [hw]
    show lookupFile
      (setFile (removeEntry (setFile fs.files (withExtension p "tmp") data)
        (withExtension p "tmp")) p data) (withExtension p "tmp") = none
    rw [lookupFile_setFile_other _ _ _ _ hne]
    exact lookupFile_removeEntry_self ..
  · intro q hqp hqt
    rw [hw]
    show lookupFile
      (setFile (removeEntry (setFile fs.files (withExtension p "tmp") data)
        (withExtension p "tmp")) p data) q = lookupFile fs.files q
    rw [lookupFile_setFile_other _ _ _ _ hqp,
        lookupFile_removeEntry_other _ _ _ hqt,
        lookupFile_setFile_other _ _ _ _ hqt]

/-- Witness for claim C4 at a concrete filesystem: directory `d` exists,
`atomic_write` of bytes `[7, 8]` to `d/f.txt` succeeds and reads back. -/
theorem atomic_write_read_back_witness :
    (FsPath.mk "d" "f" (some "txt")).dir ∈ (FS.mk ["d"] []).dirs ∧
    (atomic_write ⟨["d"], []⟩ ⟨"d", "f", some "txt"⟩ [7, 8] true).err =
      none ∧
    readFile (atomic_write ⟨["d"], []⟩ ⟨"d", "f", some "txt"⟩ [7, 8] true).fs
      ⟨"d", "f", some "txt"⟩ = some [7, 8] :=
  ⟨by decide,
   (atomic_write_read_back ⟨["d"], []⟩ ⟨"d", "f", some "txt"⟩ [7, 8]
     (by decide)).1,
   (atomic_write_read_back ⟨["d"], []⟩ ⟨"d", "f", some "txt"⟩ [7, 8]
     (by decide)).2.1⟩

/-- Claim C5: `validate_url_not_private` rejects every URL that fails to
parse; rejects every URL whose lowercased host equals one of the blocked
literals or ends with `"."` followed by one; rejects every URL whose host
parses to a private IP, including bracketed IPv6 literals (`[...]` with the
brackets stripped); and accepts any parsed URL that triggers none of those
checks — in particular well-formed public HTTPS URLs. -/
theorem validate_url_ssrf_guard :
    validate_url_not_private none = Except.error "Invalid URL" ∧
    (∀ (h : String) (b : String), b ∈ BLOCKED_HOSTS →
      (toLowerAscii h.data = b.data ∨
        endsWithL (toLowerAscii h.data) ('.' :: b.data) = true) →
      validate_url_not_private (some ⟨some h⟩) ≠ Except.ok ()) ∧
    (∀ (h : String) (ip : IpAddr), parseIpAddr h = some ip →
      is_private_ip ip = true →
      validate_url_not_private (some ⟨some h⟩) ≠ Except.ok ()) ∧
    (∀ (h : String) (rest : List Char) (ip : IpAddr),
      h.data = '[' :: rest → rest.getLast? = some ']' →
      parseIpAddr ⟨stripOuter ('[' :: rest)⟩ = some ip →
      is_private_ip ip = true →
      validate_url_not_private (some ⟨some h⟩) ≠ Except.ok ()) ∧
    (∀ h : String, hostBlocked h = false → hostIpPrivate h = false →
      bracketIpPrivate h = false →
      validate_url_not_private (some ⟨some h⟩) = Except.ok ()) := by
  refine ⟨rfl, ?_, ?_, ?_, ?_⟩
  · intro h b hb hmatch
    have hblocked : hostBlocked h = true := by
      unfold hostBlocked
      rw [List.any_eq_true]
      refine ⟨b, hb, ?_⟩
      rcases hmatch with heq | hsuf
      · simp [heq]
      · simp [hsuf]
    simp [validate_url_not_private, hblocked]
  · intro h ip hparse hpriv
    have hip : hostIpPrivate h = true := by
      simp [hostIpPrivate, hparse, hpriv]
    unfold validate_url_not_private
    by_cases h1 : hostBlocked h <;> simp [h1, hip]
  · intro h rest ip hdata hlast hparse hpriv
    have hbr : bracketIpPrivate h = true := by
      unfold bracketIpPrivate
      rw [hdata]
      simp only [hlast, hdata, hparse, hpriv]
      simp
    unfold validate_url_not_private
    by_cases h1 : hostBlocked h <;> by_cases h2 : hostIpPrivate h <;>
      simp [h1, h2, hbr]
  · intro h h1 h2 h3
    simp [validate_url_not_private, h1, h2, h3]

/-- Witness for claim C5: the host `10.0.0.1` parses to the RFC1918 address
10.0.0.1, which is private, and the URL is rejected. -/
theorem validate_url_ssrf_guard_witness :
    parseIpAddr "10.0.0.1" = some (IpAddr.v4 10 0 0 1) ∧
    is_private_ip (IpAddr.v4 10 0 0 1) = true ∧
    validate_url_not_private (some ⟨some "10.0.0.1"⟩) ≠ Except.ok () :=
  ⟨by decide, by decide,
   validate_url_ssrf_guard.2.2.1 "10.0.0.1" (IpAddr.v4 10 0 0 1)
     (by decide) (by decide)⟩

/-- A provider that fails on every invocation consumes all its fuel: the
inner retry loop makes exactly `fuel` invocations and reports no success. -/
theorem providerLoop_all_fail (e : Nat → String) (name : String)
    (maxR : Nat) :
    ∀ (fuel attempt : Nat) (failures : List String),
      ∃ fs, providerLoop (fun k => Except.error (e k)) name maxR attempt fuel
        failures = (none, fuel, fs) := by
  intro fuel
  induction fuel with
  | zero => exact fun attempt failures => ⟨failures, rfl⟩
  | succ n ih =>
      intro attempt failures
      obtain ⟨fs, hfs⟩ := ih (attempt + 1)
        (failures ++ [name ++ " attempt " ++ toString (attempt + 1) ++ "/"
          ++ toString (maxR + 1) ++ ": " ++ e attempt])
      exact ⟨fs, by simp [providerLoop, hfs]⟩

/-- Claim C6: for a two-provider chain whose first provider fails on every
invocation (with arbitrary error messages) and whose second succeeds on its
first invocation, `chat_with_system` (cache miss) returns the second
provider's response, invokes the first provider exactly `max_retries + 1`
times, and the second exactly once. -/
theorem chain_fallback_counts (e : Nat → String) (r : String) (maxR : Nat)
    (n1 n2 : String) :
    chat_with_system none
      [(n1, fun k => Except.error (e k)), (n2, fun _ => Except.ok r)] maxR =
      (Except.ok r, [maxR + 1, 1]) := by
  obtain ⟨fs, hfs⟩ := providerLoop_all_fail e n1 maxR (maxR + 1) 0 []
  simp only [chat_with_system, chainLoop, hfs]
  simp [providerLoop]

/-- One wrong-code attempt on a fresh-enough guard (no lockout recorded)
just increments the failure counter, recording the lockout instant exactly
when the counter reaches `MAX_PAIR_ATTEMPTS`. -/
theorem tryPair_wrong_code (c w tok : String) (t n : Nat)
    (hw : ctEqStr (rustTrim w) (rustTrim c) = false) :
    tryPair ⟨true, some c, [], n, none⟩ w t tok =
      (Except.ok none,
       ⟨true, some c, [], n + 1,
        if MAX_PAIR_ATTEMPTS ≤ n + 1 then some t else none⟩) := by
  simp [tryPair, hw]

/-- Claim C7: starting from a fresh guard with pairing required, five
consecutive wrong-code `try_pair` calls exhaust `MAX_ATTEMPTS = 5`; a
sixth call made within one second of the lockout-triggering (fifth)
attempt returns `Err(sec)` with `sec = LOCKOUT - ⌊elapsed⌋ = 300`, which
lies in `[LOCKOUT - 1, LOCKOUT] = [299, 300]`. -/
theorem try_pair_lockout (c w1 w2 w3 w4 w5 w6 tk1 tk2 tk3 tk4 tk5 tk6 :
      String) (t1 t2 t3 t4 t5 t6 : Nat)
    (hw1 : ctEqStr (rustTrim w1) (rustTrim c) = false)
    (hw2 : ctEqStr (rustTrim w2) (rustTrim c) = false)
    (hw3 : ctEqStr (rustTrim w3) (rustTrim c) = false)
    (hw4 : ctEqStr (rustTrim w4) (rustTrim c) = false)
    (hw5 : ctEqStr (rustTrim w5) (rustTrim c) = false)
    (hlt : t6 - t5 < 1000) :
    (tryPair ((tryPair ((tryPair ((tryPair ((tryPair ((tryPair
        (PairingGuard.new true [] c) w1 t1 tk1).2) w2 t2 tk2).2)
        w3 t3 tk3).2) w4 t4 tk4).2) w5 t5 tk5).2) w6 t6 tk6).1 =
      Except.error (PAIR_LOCKOUT_SECS - (t6 - t5) / 1000) ∧
    PAIR_LOCKOUT_SECS - 1 ≤ PAIR_LOCKOUT_SECS - (t6 - t5) / 1000 ∧
    PAIR_LOCKOUT_SECS - (t6 - t5) / 1000 ≤ PAIR_LOCKOUT_SECS := by
  have he : (t6 - t5) / 1000 = 0 := Nat.div_eq_of_lt hlt
  have s1 : (tryPair (PairingGuard.new true [] c) w1 t1 tk1).2 =
      (⟨true, some c, [], 1, none⟩ : PairingGuard) := by
    rw [show PairingGuard.new true [] c =
        (⟨true, some c, [], 0, none⟩ : PairingGuard) from rfl,
      tryPair_wrong_code c w1 tk1 t1 0 hw1]
    simp [MAX_PAIR_ATTEMPTS]
  have s2 : (tryPair (⟨true, some c, [], 1, none⟩ : PairingGuard)
      w2 t2 tk2).2 = (⟨true, some c, [], 2, none⟩ : PairingGuard) := by
    rw [tryPair_wrong_code c w2 tk2 t2 1 hw2]
    simp [MAX_PAIR_ATTEMPTS]
  have s3 : (tryPair (⟨true, some c, [], 2, none⟩ : PairingGuard)
      w3 t3 tk3).2 = (⟨true, some c, [], 3, none⟩ : PairingGuard) := by
    rw [tryPair_wrong_code c w3 tk3 t3 2 hw3]
    simp [MAX_PAIR_ATTEMPTS]
  have s4 : (tryPair (⟨true, some c, [], 3, none⟩ : PairingGuard)
      w4 t4 tk4).2 = (⟨true, some c, [], 4, none⟩ : PairingGuard) := by
    rw [tryPair_wrong_code c w4 tk4 t4 3 hw4]
    simp [MAX_PAIR_ATTEMPTS]
  have s5 : (tryPair (⟨true, some c, [], 4, none⟩ : PairingGuard)
      w5 t5 tk5).2 = (⟨true, some c, [], 5, some t5⟩ : PairingGuard) := by
    rw [tryPair_wrong_code c w5 tk5 t5 4 hw5]
    simp [MAX_PAIR_ATTEMPTS]
  refine ⟨?_, by rw [he]; decide, by rw [he]; decide⟩
  rw [s1, s2, s3, s4, s5]
  simp [tryPair, MAX_PAIR_ATTEMPTS, PAIR_LOCKOUT_SECS, he]

/-- Witness for claim C7 at concrete inputs: expected code 123456, five
wrong attempts 000000 at ticks 1..5 (milliseconds), sixth call at tick 5
(zero elapsed seconds) is rejected with 300 seconds remaining. -/
theorem try_pair_lockout_witness :
    ctEqStr (rustTrim "000000") (rustTrim "123456") = false ∧
    (5 - 5 : Nat) < 1000 ∧
    (tryPair ((tryPair ((tryPair ((tryPair ((tryPair ((tryPair
        (PairingGuard.new true [] "123456") "000000" 1 "a").2)
        "000000" 2 "b").2) "000000" 3 "c").2) "000000" 4 "d").2)
        "000000" 5 "e").2) "000000" 5 "f").1 =
      Except.error (PAIR_LOCKOUT_SECS - (5 - 5) / 1000) ∧
    PAIR_LOCKOUT_SECS - 1 ≤ PAIR_LOCKOUT_SECS - (5 - 5) / 1000 ∧
    PAIR_LOCKOUT_SECS - (5 - 5) / 1000 ≤ PAIR_LOCKOUT_SECS :=
  ⟨by decide, by decide,
   try_pair_lockout "123456" "000000" "000000" "000000" "000000" "000000"
     "000000" "a" "b" "c" "d" "e" "f" 1 2 3 4 5 5
     (by decide) (by decide) (by decide) (by decide) (by decide)
     (by decide)⟩

/-- Claim C9: the pairing code is never invalidated by the guard.  From a
fresh guard with pairing required, a successful `try_pair(code)` returns a
token; a second `try_pair` with the same correct code again succeeds with
the freshly generated token of that call, the guard still holds the same
pairing code, and both tokens are in the paired-token set — so the
"one-time" code is exchangeable for unboundedly many bearer tokens. -/
theorem try_pair_code_reusable (c tk1 tk2 : String) (t1 t2 : Nat) :
    (tryPair (PairingGuard.new true [] c) c t1 tk1).1 =
      Except.ok (some tk1) ∧
    (tryPair ((tryPair (PairingGuard.new true [] c) c t1 tk1).2)
        c t2 tk2).1 = Except.ok (some tk2) ∧
    ((tryPair ((tryPair (PairingGuard.new true [] c) c t1 tk1).2)
        c t2 tk2).2).pairing_code = some c ∧
    tk1 ∈ ((tryPair ((tryPair (PairingGuard.new true [] c) c t1 tk1).2)
        c t2 tk2).2).paired_tokens ∧
    tk2 ∈ ((tryPair ((tryPair (PairingGuard.new true [] c) c t1 tk1).2)
        c t2 tk2).2).paired_tokens := by
  have hself : ctEqStr (rustTrim c) (rustTrim c) = true :=
    constantTimeEq_self _
  have h1 : tryPair (PairingGuard.new true [] c) c t1 tk1 =
      (Except.ok (some tk1),
       ⟨true, some c, List.insert tk1 [], 0, none⟩) := by
    simp [tryPair, PairingGuard.new, hself]
  have h2 : tryPair (⟨true, some c, List.insert tk1 [], 0, none⟩ :
      PairingGuard) c t2 tk2 =
      (Except.ok (some tk2),
       ⟨true, some c, List.insert tk2 (List.insert tk1 []), 0, none⟩) := by
    simp [tryPair, hself]
  rw [h1]
  refine ⟨rfl, ?_, ?_, ?_, ?_⟩ <;> rw [h2]
  · simp [List.mem_insert_iff]
  · simp [List.mem_insert_iff]

/-- Filtering cannot create an element satisfying a predicate that no
element of the original list satisfied. -/
theorem any_filter_false {α : Type} (l : List α) (p q : α → Bool)
    (h : l.any p = false) : (l.filter q).any p = false := by
  rw [List.any_eq_false] at h ⊢
  exact fun x hx => h x (List.mem_of_mem_filter hx)

/-- Every table reachable by daemon starts and handle drops keeps at most
one holder per lock path. -/
theorem applyLockOp_at_most_one (t : LockTable) (op : LockOp)
    (h : ∀ p, holdersOf t p ≤ 1) : ∀ p, holdersOf (applyLockOp t op) p ≤ 1 := by
  cases op with
  | start dir pid =>
      by_cases hany :
          t.held.any (fun e => e.1 == daemonLockPath dir) = true
      · simpa [applyLockOp, daemonAcquireLock, tryLockExclusive, hany]
          using h
      · rw [Bool.not_eq_true] at hany
        intro p
        have hred : applyLockOp t (.start dir pid) =
            ⟨(daemonLockPath dir, pid) :: t.held⟩ := by
          simp [applyLockOp, daemonAcquireLock, tryLockExclusive, hany]
        rw [hred]
        by_cases hp : ((daemonLockPath dir, pid) : String × ProcId).1 == p
        · have hnil : t.held.filter (fun e => e.1 == p) = [] := by
            rw [List.filter_eq_nil_iff]
            intro a ha
            rw [List.any_eq_false] at hany
            have := hany a ha
            rw [beq_iff_eq] at hp ⊢
            rw [← hp]
            simpa using this
          simp [holdersOf, List.filter, hp, hnil]
        · have := h p
          simp only [holdersOf, List.filter, hp] at this ⊢
          simpa [Bool.not_eq_true] using this
  | drop dir pid =>
      intro p
      have hsub : List.Sublist
          ((applyLockOp t (.drop dir pid)).held.filter (fun e => e.1 == p))
          (t.held.filter (fun e => e.1 == p)) :=
        List.Sublist.filter _ (List.filter_sublist _)
      exact le_trans hsub.length_le (h p)

/-- Claim C8: mutual exclusion of the daemon instance lock.  (1) Over any
trace of daemon starts and handle drops from an empty lock table, every
lock path has at most one holder.  (2) While one process holds
`<config-dir>/daemon.lock`, another process's `daemonAcquireLock` on the
same config directory fails with the structured instance-conflict error.
(3) Once the holder drops its file handle, a fresh acquisition attempt on
the same path succeeds. -/
theorem daemon_lock_mutual_exclusion :
    (∀ (ops : List LockOp) (p : String),
      holdersOf (applyLockOps ops ⟨[]⟩) p ≤ 1) ∧
    (∀ (t : LockTable) (dir : String) (pid1 pid2 : ProcId) (t2 : LockTable),
      daemonAcquireLock t dir pid1 = Except.ok t2 →
      daemonAcquireLock t2 dir pid2 =
        Except.error (structured_error "Failed to start daemon"
          ("another instance holds the lock (" ++ daemonLockPath dir ++ ")")
          "stop the existing daemon with Ctrl+C or remove the lock file")) ∧
    (∀ (t : LockTable) (dir : String) (pid1 pid2 : ProcId) (t2 : LockTable),
      daemonAcquireLock t dir pid1 = Except.ok t2 →
      daemonAcquireLock (dropLock t2 (daemonLockPath dir) pid1) dir pid2 =
        Except.ok ⟨(daemonLockPath dir, pid2) ::
          (dropLock t2 (daemonLockPath dir) pid1).held⟩) := by
  have hshape : ∀ (t : LockTable) (dir : String) (pid1 : ProcId)
      (t2 : LockTable), daemonAcquireLock t dir pid1 = Except.ok t2 →
      t.held.any (fun e => e.1 == daemonLockPath dir) = false ∧
        t2 = ⟨(daemonLockPath dir, pid1) :: t.held⟩ := by
    intro t dir pid1 t2 hok
    by_cases hany : t.held.any (fun e => e.1 == daemonLockPath dir) = true
    · simp [daemonAcquireLock, tryLockExclusive, hany] at hok
    · rw [Bool.not_eq_true] at hany
      simp only [daemonAcquireLock, tryLockExclusive, hany] at hok
      simp at hok
      exact ⟨hany, hok.symm⟩
  refine ⟨?_, ?_, ?_⟩
  · intro ops
    have fold : ∀ (l : List LockOp) (t : LockTable),
        (∀ p, holdersOf t p ≤ 1) → ∀ p, holdersOf (applyLockOps l t) p ≤ 1 := by
      intro l
      induction l with
      | nil => exact fun t h => h
      | cons op rest ih =>
          exact fun t h => ih _ (applyLockOp_at_most_one t op h)
    exact fold ops ⟨[]⟩ (fun p => by simp [holdersOf])
  · intro t dir pid1 pid2 t2 hok
    obtain ⟨hany, ht2⟩ := hshape t dir pid1 t2 hok
    subst ht2
    simp [daemonAcquireLock, tryLockExclusive]
  · intro t dir pid1 pid2 t2 hok
    obtain ⟨hany, ht2⟩ := hshape t dir pid1 t2 hok
    subst ht2
    have hhead : (dropLock ⟨(daemonLockPath dir, pid1) :: t.held⟩
        (daemonLockPath dir) pid1).held =
        t.held.filter
          (fun e => !(e.1 == daemonLockPath dir && e.2 == pid1)) := by
      simp [dropLock, List.filter_cons]
    have hfree : ((dropLock ⟨(daemonLockPath dir, pid1) :: t.held⟩
        (daemonLockPath dir) pid1).held.any
          (fun e => e.1 == daemonLockPath dir)) = false := by
      rw [hhead]
      exact any_filter_false t.held _ _ hany
    simp only [daemonAcquireLock, tryLockExclusive, hfree]
    simp

/-- Witness for claim C8 at a concrete table: process 1 acquires the lock
for config directory `cfg` on the empty table; process 2 then fails; after
process 1 drops its handle, process 2 succeeds. -/
theorem daemon_lock_mutual_exclusion_witness :
    daemonAcquireLock ⟨[]⟩ "cfg" 1 =
      Except.ok ⟨[("cfg/daemon.lock", 1)]⟩ ∧
    daemonAcquireLock ⟨[("cfg/daemon.lock", 1)]⟩ "cfg" 2 =
      Except.error (structured_error "Failed to start daemon"
        ("another instance holds the lock (" ++ daemonLockPath "cfg" ++ ")")
        "stop the existing daemon with Ctrl+C or remove the lock file") ∧
    daemonAcquireLock (dropLock ⟨[("cfg/daemon.lock", 1)]⟩
        (daemonLockPath "cfg") 1) "cfg" 2 =
      Except.ok ⟨("cfg/daemon.lock", 2) ::
        (dropLock ⟨[("cfg/daemon.lock", 1)]⟩ (daemonLockPath "cfg") 1).held⟩ :=
  ⟨rfl,
   daemon_lock_mutual_exclusion.2.1 ⟨[]⟩ "cfg" 1 2
     ⟨[("cfg/daemon.lock", 1)]⟩ rfl,
   daemon_lock_mutual_exclusion.2.2 ⟨[]⟩ "cfg" 1 2
     ⟨[("cfg/daemon.lock", 1)]⟩ rfl⟩

/-- Claim C10: when the destination's extension is already `tmp`, the
computed temp path `path.with_extension("tmp")` IS the destination, so the
bytes are written straight into the destination (a successful write still
reads back), and the failure-cleanup branch (`remove_file(tmp)` after a
failed write/fsync) deletes the destination file itself. -/
theorem atomic_write_tmp_destination (fs : FS) (p : FsPath) (data : List Nat)
    (hext : p.ext = some "tmp") (hdir : p.dir ∈ fs.dirs) :
    withExtension p "tmp" = p ∧
      readFile (atomic_write fs p data true).fs p = some data ∧
      readFile (atomic_write fs p data false).fs p = none := by
  have htmp : withExtension p "tmp" = p := by
    cases p
    simp_all [withExtension]
  refine ⟨htmp, ?_, ?_⟩
  · exact atomic_write_success_read fs p data hdir
  · have hw : atomic_write fs p data false =
        { fs := removeFile (writeFile fs p data) p,
          err := some "Failed to fsync temp file" } := by
      unfold atomic_write
      rw [if_pos hdir, htmp]
      exact rfl
    rw [hw]
    show lookupFile (removeEntry (writeFile fs p data).files p) p = none
    exact lookupFile_removeEntry_self ..

/-- Witness for claim C10: writing to `d/state.tmp` (which already holds
bytes `[1]`) computes a temp path equal to the destination, and the failed
write's cleanup deletes the destination. -/
theorem atomic_write_tmp_destination_witness :
    withExtension ⟨"d", "state", some "tmp"⟩ "tmp" =
      (⟨"d", "state", some "tmp"⟩ : FsPath) ∧
    readFile (atomic_write ⟨["d"], [(⟨"d", "state", some "tmp"⟩, [1])]⟩
        ⟨"d", "state", some "tmp"⟩ [2] false).fs
      ⟨"d", "state", some "tmp"⟩ = none :=
  ⟨(atomic_write_tmp_destination ⟨["d"], [(⟨"d", "state", some "tmp"⟩, [1])]⟩
      ⟨"d", "state", some "tmp"⟩ [2] rfl (by decide)).1,
   (atomic_write_tmp_destination ⟨["d"], [(⟨"d", "state", some "tmp"⟩, [1])]⟩
      ⟨"d", "state", some "tmp"⟩ [2] rfl (by decide)).2.2⟩

end Baihu
